import Mathlib

set_option maxRecDepth 4000

/-!
Shallow embedding of `segyio_converter.py` (SEG-Y converter).

A file or buffer is a `List Nat` of byte values.  Python operations are
modelled as follows:

* `l[a:b]` (read pySlice, `0 ≤ a ≤ b`) is `pySlice l a b`; Python clamps
  out-of-range indices, which `List.drop`/`List.take` do as well.
* `file.seek(p); file.read(n)` is `readAt file p n`; a read near the end of
  the file returns fewer than `n` bytes, never an error.
* `ba[a:b] = bs` (pySlice assignment on a `bytearray`, `a ≤ b`) is
  `setSlice ba a b bs`.  When `a` is at or past the end of the buffer the
  assignment APPENDS `bs` at the end — exactly Python's semantics, which is
  load-bearing for the `binary_header[3212:3216]` writes in the source.
* `struct.unpack` demands an exact byte count and raises `struct.error`
  otherwise; the unpack models return `Option` values, `none` for the raise.
* floats are represented by their IEEE-754 binary32 bit patterns (`Nat`).
  `struct.pack('>f', x)` for an `x` obtained from `struct.unpack('>f', …)`
  reproduces the bit pattern (exact for every value; the quieting of
  signalling NaN payloads by the intermediate binary64 hop is not modelled).
  `float(int)` followed by `struct.pack('>f', …)` is the round-to-nearest-even
  binary32 conversion `toF32bits` (exact: every int that reaches it has
  magnitude ≤ 2^31, so the binary64 hop is lossless and a single rounding
  happens at the pack).
-/

/-- Python `l[a:b]` for `0 ≤ a ≤ b` (clamping at the ends). -/
def pySlice (l : List Nat) (a b : Nat) : List Nat :=
  (l.drop a).take (b - a)

/-- Python `file.seek(pos); file.read(n)`: up to `n` bytes, short at EOF. -/
def readAt (file : List Nat) (pos n : Nat) : List Nat :=
  (file.drop pos).take n

/-- Python `ba[a:b] = bs` for `a ≤ b`: replaces the pySlice, appending at the
end of the buffer when `a` is at or beyond its length. -/
def setSlice (l : List Nat) (a b : Nat) (bs : List Nat) : List Nat :=
  l.take a ++ bs ++ l.drop b

/-- Big-endian bytes of `v` on `w` bytes, as produced by
`struct.pack('>H' / '>L', v)` for in-range `v`. -/
def packBE : Nat → Nat → List Nat
  | 0, _ => []
  | w + 1, v => (v / 256 ^ w % 256) :: packBE w v

/-- Big-endian value of a byte string. -/
def unBE (bs : List Nat) : Nat :=
  bs.foldl (fun a b => 256 * a + b) 0

/-- Model of `struct.unpack` of an unsigned big-endian `w`-byte field: requires exactly
`w` bytes (`struct.error`, i.e. `none`, otherwise). -/
def beUBE (w : Nat) (bs : List Nat) : Option Nat :=
  if bs.length = w then some (unBE bs) else none

/-- Model of `struct.unpack('>H', bs)`. -/
def beU16 (bs : List Nat) : Option Nat := beUBE 2 bs

/-- Model of `struct.unpack('>L', bs)`. -/
def beU32 (bs : List Nat) : Option Nat := beUBE 4 bs

/-- Two's-complement reinterpretation of a 16-bit unsigned value. -/
def toSigned16 (v : Nat) : Int :=
  if v < 32768 then (v : Int) else (v : Int) - 65536

/-- Two's-complement reinterpretation of a 32-bit unsigned value. -/
def toSigned32 (v : Nat) : Int :=
  if v < 2147483648 then (v : Int) else (v : Int) - 4294967296

/-- Model of `struct.unpack('>h', bs)`. -/
def beI16 (bs : List Nat) : Option Int := (beUBE 2 bs).map toSigned16

/-- Model of `struct.unpack('>l', bs)`. -/
def beI32 (bs : List Nat) : Option Int := (beUBE 4 bs).map toSigned32

/-- Python `chunk.ljust(4, b'\x00')`: pad with trailing zero bytes to length
4 (never truncates). -/
def ljust4 (chunk : List Nat) : List Nat :=
  chunk ++ List.replicate (4 - chunk.length) 0

/-- Floor of log2 with explicit fuel (64 is enough for every value arising
here, all < 2^32). -/
def log2F : Nat → Nat → Nat
  | 0, _ => 0
  | fuel + 1, n => if n ≤ 1 then 0 else log2F fuel (n / 2) + 1

/-- IEEE-754 binary32 bit pattern of the integer `z`, rounding to nearest,
ties to even — the value of `struct.pack('>f', float(z))` for `|z| ≤ 2^31`. -/
def toF32bits (z : Int) : Nat :=
  if z = 0 then 0
  else
    let s : Nat := if z < 0 then 2 ^ 31 else 0
    let n : Nat := z.natAbs
    let e : Nat := log2F 64 n
    if e ≤ 23 then s + (e + 127) * 2 ^ 23 + (n * 2 ^ (23 - e) - 2 ^ 23)
    else
      let sh := e - 23
      let q := n / 2 ^ sh
      let r := n % 2 ^ sh
      let q2 := if 2 * r > 2 ^ sh ∨ (2 * r = 2 ^ sh ∧ q % 2 = 1) then q + 1 else q
      if q2 = 2 ^ 24 then
        if 128 ≤ e + 1 then s + 255 * 2 ^ 23 else s + (e + 1 + 127) * 2 ^ 23
      else
        if 128 ≤ e then s + 255 * 2 ^ 23 else s + (e + 127) * 2 ^ 23 + (q2 - 2 ^ 23)

/-- A decoded sample value: a Python `int` (from `'>h'`/`'>l'` or the
fallback literal `0`), or a Python `float` carried as binary32 bits. -/
inductive SampleVal where
  | intVal : Int → SampleVal
  | floatBits : Nat → SampleVal
deriving DecidableEq, Repr

/-- The `try: … struct.unpack … except struct.error: sample = 0` block of
`validate_and_fix_segy` (source lines 237–247), on an already-padded 4-byte
chunk.  `none` results of an unpack are the caught `struct.error`. -/
def decodeSample (fc : Nat) (chunk : List Nat) : SampleVal :=
  if fc = 1 then
    match beI16 (chunk.take 2) with
    | some z => .intVal z
    | none => .intVal 0
  else if fc = 2 then
    match beI32 chunk with
    | some z => .intVal z
    | none => .intVal 0
  else if fc = 3 ∨ fc = 5 then
    match beU32 chunk with
    | some b => .floatBits b
    | none => .intVal 0
  else .intVal 0

/-- Model of `struct.pack('>f', float(sample))` (source line 249). -/
def packFloatVal : SampleVal → List Nat
  | .intVal z => packBE 4 (toF32bits z)
  | .floatBits b => packBE 4 b

/-- One iteration of the sample loop (source lines 235–249): pad the chunk to
4 bytes, decode it for format code `fc`, re-encode as big-endian float32. -/
def processChunk (fc : Nat) (chunk : List Nat) : List Nat :=
  packFloatVal (decodeSample fc (ljust4 chunk))

/-- The sample loop `for j in range(0, len(sample_bytes), 4)` with fuel
(the fuel is the byte count, amply enough — one unit per 4-byte step). -/
def encodeChunksF (fc : Nat) : Nat → List Nat → List Nat
  | _, [] => []
  | 0, _ => []
  | fuel + 1, b :: rest =>
      processChunk fc ((b :: rest).take 4) ++ encodeChunksF fc fuel ((b :: rest).drop 4)

/-- The full sample-conversion loop over a byte string. -/
def encodeChunks (fc : Nat) (bs : List Nat) : List Nat :=
  encodeChunksF fc bs.length bs

/-- The three fields `read_binary_header` unpacks from the 400-byte binary
header buffer (source lines 34–50): sample interval at 16–18, number of
samples at 20–22, data sample format at 24–26, all `'>H'`. -/
def read_binary_header_fields (bh : List Nat) : Option (Nat × Nat × Nat) := do
  let si ← beU16 (pySlice bh 16 18)
  let ns ← beU16 (pySlice bh 20 22)
  let fc ← beU16 (pySlice bh 24 26)
  return (si, ns, fc)

/-- Model of `read_binary_header(file)`: seek to 3200, read 400 bytes, unpack the
three fields (source lines 34–50). -/
def read_binary_header (file : List Nat) : Option (Nat × Nat × Nat) :=
  read_binary_header_fields (pySlice file 3200 3600)

/-- The ten fields of `get_binary_header_details` (source lines 100–113).
Note the SIGNED (`'>h'`) reads of `sample_interval`, `num_samples` and
`format_code`, unlike `read_binary_header`'s unsigned (`'>H'`) reads. -/
structure BinHeaderDetails where
  job_id : Int
  line_num : Int
  reel_num : Int
  traces_per_ensemble : Int
  aux_traces_per_ensemble : Int
  sample_interval : Int
  original_sample_interval : Int
  num_samples : Int
  original_num_samples : Int
  format_code : Int
deriving DecidableEq, Repr

/-- Model of `get_binary_header_details(binary_header)` (source lines 100–113). -/
def get_binary_header_details (bh : List Nat) : Option BinHeaderDetails := do
  let job ← beI32 (pySlice bh 0 4)
  let line ← beI32 (pySlice bh 4 8)
  let reel ← beI32 (pySlice bh 8 12)
  let tpe ← beI16 (pySlice bh 12 14)
  let atpe ← beI16 (pySlice bh 14 16)
  let si ← beI16 (pySlice bh 16 18)
  let osi ← beI16 (pySlice bh 18 20)
  let ns ← beI16 (pySlice bh 20 22)
  let ons ← beI16 (pySlice bh 22 24)
  let fc ← beI16 (pySlice bh 24 26)
  return ⟨job, line, reel, tpe, atpe, si, osi, ns, ons, fc⟩

/-- A scanner record (source lines 194–198): `{'pos': …, 'size': …,
'samples': …}`. -/
structure TraceRecord where
  pos : Nat
  size : Nat
  samples : Nat
deriving DecidableEq, Repr

/-- The trace pre-scan loop of `validate_and_fix_segy` (source lines
170–201), with explicit fuel (one unit per trace; the caller passes
`file.length + 1`, which can never be exhausted since every iteration
advances `pos` by at least 240).  The `none` fallback of the sample-count
unpack is unreachable: the guard guarantees a full 240-byte header. -/
def scanFromF (file : List Nat) (ns : Nat) : Nat → Nat → List TraceRecord
  | _, 0 => []
  | pos, fuel + 1 =>
    if pos + 240 > file.length then []
    else
      let hdr := readAt file pos 240
      if hdr.length ≠ 240 then []
      else
        match beU16 (pySlice hdr 114 116) with
        | none => []
        | some ts0 =>
          let ts := if ts0 = 0 then ns else ts0
          let traceSize := 240 + ts * 4
          if pos + traceSize > file.length then []
          else ⟨pos, traceSize, ts⟩ :: scanFromF file ns (pos + traceSize) fuel

/-- The Trace Scanner: the pre-scan walk of `validate_and_fix_segy` starting
at a given offset (the source starts it at 3600). -/
def scanTraces (file : List Nat) (ns pos : Nat) : List TraceRecord :=
  scanFromF file ns pos (file.length + 1)

/-- The error taxonomy of the source, by raise site:
`tooSmall` = `ValueError("Invalid SEGY file: too small")` (line 155);
`invalidSampleCount` = `ValueError("Invalid number of samples")` (line 164);
`structuralSizeMismatch` = `ValueError("File size … not consistent …")`
(line 83); `headerReadError` = an uncaught `struct.error` from unpacking a
short header slice; `divByZero` = `ZeroDivisionError` from
`(file_size - 3600) // trace_size` with `trace_size == 0` (line 288);
`emptyMinMax` = `ValueError` from `min()`/`max()` of an empty set
(lines 340–341). -/
inductive SegyError where
  | tooSmall
  | invalidSampleCount
  | structuralSizeMismatch
  | headerReadError
  | divByZero
  | emptyMinMax
deriving DecidableEq, Repr

/-- Model of `validate_segy_structure(file)` (source lines 63–86): parse the binary
header, compute `trace_size = 240 + num_samples*4`, raise on
`(file_size - 3600) % trace_size != 0`, else return
`(num_samples, format, expected_traces, trace_size)`.  Python's `%` and `//`
on a positive divisor are `Int.emod` and `Int.ediv`. -/
def validate_segy_structure (file : List Nat) :
    Except SegyError (Nat × Nat × Int × Nat) :=
  match read_binary_header file with
  | none => .error .headerReadError
  | some (_si, ns, fc) =>
    let trace_size := 240 + ns * 4
    let remaining : Int := (file.length : Int) - 3600
    if Int.emod remaining (trace_size : Int) ≠ 0 then .error .structuralSizeMismatch
    else .ok (ns, fc, Int.ediv remaining (trace_size : Int), trace_size)

/-- One output trace of the Fix-Up Rewriter (source lines 222–254): re-read
the 240-byte trace header, overwrite its sample count with the header's
`num_samples`, convert `min(record.samples, num_samples)` samples through the
codec, zero-pad up to `num_samples`. -/
def emitTrace (file : List Nat) (ns fc : Nat) (t : TraceRecord) : List Nat :=
  let hdr := readAt file t.pos 240
  let hdr2 := setSlice hdr 114 116 (packBE 2 ns)
  let actualSamples := min t.samples ns
  let sampleBytes := readAt file (t.pos + 240) (actualSamples * 4)
  hdr2 ++ encodeChunks fc sampleBytes ++ List.replicate ((ns - actualSamples) * 4) 0

/-- Model of `validate_and_fix_segy(input_file, output_file)` (source lines 149–257).
The returned list is the byte content of the output file; an `.error` result
is a raise before the output file is opened (line 210), so no output is
created or modified.  `num_samples` is unsigned, so `num_samples <= 0` is
`ns = 0`.  Note `setSlice binary 3212 3216 …` on the 400-byte header:
Python appends the four count bytes at buffer offset 400. -/
def validate_and_fix_segy (file : List Nat) : Except SegyError (List Nat) :=
  if file.length < 3600 then .error .tooSmall
  else
    let textual := pySlice file 0 3200
    let binary := pySlice file 3200 3600
    match read_binary_header file with
    | none => .error .headerReadError
    | some (_si, ns, fc) =>
      if ns = 0 then .error .invalidSampleCount
      else
        let traces := scanTraces file ns 3600
        let actual := traces.length
        let bh1 := setSlice binary 300 302 (packBE 2 2)
        let bh2 := setSlice bh1 20 22 (packBE 2 ns)
        let bh3 := setSlice bh2 24 26 (packBE 2 5)
        let bh4 := setSlice bh3 3212 3216 (packBE 4 actual)
        .ok (textual ++ bh4 ++ (traces.map (emitTrace file ns fc)).flatten)

/-- The parameter record of `analyze_segy_parameters` (source lines
361–387).  The three header fields come from the SIGNED readers of
`get_binary_header_details`; `trace_size = 240 + num_samples * 4`
(`trace_header_size = 240` and `sample_size = 4` are the constants of the
source record). -/
structure GridParams where
  num_samples : Int
  sample_interval : Int
  format_code : Int
  trace_size : Int
deriving DecidableEq, Repr

/-- Model of `analyze_segy_parameters(input_file)` (source lines 361–387). -/
def analyze_segy_parameters (file : List Nat) : Option GridParams := do
  let d ← get_binary_header_details (pySlice file 3200 3600)
  return ⟨d.num_samples, d.sample_interval, d.format_code, 240 + d.num_samples * 4⟩

/-- One cell body of the grid loop of `standardize_segy_for_pzero` (source
lines 429–471): `none` is the `break` (input exhausted or short header);
otherwise the bytes written for this trace and the new stream position
(`pos = infile.tell()`, i.e. `pos + 240 + len(data)`). -/
def gridEmitTrace (file : List Nat) (ns il xl pos : Nat) :
    Option (List Nat × Nat) :=
  if file.length ≤ pos then none
  else
    let hdr := readAt file pos 240
    if hdr.length ≠ 240 then none
    else
      let h1 := setSlice hdr 188 190 (packBE 2 (il + 1))
      let h2 := setSlice h1 192 194 (packBE 2 (xl + 1))
      let h3 := setSlice h2 180 184 (packBE 4 (il * 100))
      let h4 := setSlice h3 184 188 (packBE 4 (xl * 100))
      let h5 := setSlice h4 114 116 (packBE 2 ns)
      let h6 := setSlice h5 116 118 (packBE 2 4003)
      let dataSize := ns * 4
      let data := readAt file (pos + 240) dataSize
      let data2 :=
        if data.length < dataSize then data ++ List.replicate (dataSize - data.length) 0
        else if dataSize < data.length then data.take dataSize
        else data
      some (h6 ++ data2, pos + 240 + data.length)

/-- The inner `for xline in range(grid_size)` loop (fuel = remaining xline
values); returns the traces written and the final stream position. -/
def gridInnerLoop (file : List Nat) (ns il : Nat) :
    Nat → Nat → Nat → List (List Nat) × Nat
  | _, pos, 0 => ([], pos)
  | xl, pos, fuel + 1 =>
    match gridEmitTrace file ns il xl pos with
    | none => ([], pos)
    | some (t, pos2) =>
      let r := gridInnerLoop file ns il (xl + 1) pos2 fuel
      (t :: r.1, r.2)

/-- The outer `for inline in range(grid_size)` loop (fuel = remaining inline
values).  A `break` of the inner loop leaves `pos` unchanged, so every later
outer iteration immediately breaks again — exactly the source's behavior. -/
def gridOuterLoop (file : List Nat) (ns gridSize : Nat) :
    Nat → Nat → Nat → List (List Nat) × Nat
  | _, pos, 0 => ([], pos)
  | il, pos, fuel + 1 =>
    let inner := gridInnerLoop file ns il 0 pos gridSize
    let rest := gridOuterLoop file ns gridSize (il + 1) inner.2 fuel
    (inner.1 ++ rest.1, rest.2)

/-- Model of `standardize_segy_for_pzero(input_file, output_file)` (source lines
388–480): result is `(output bytes, trace_count, grid_size)`, `none` any
uncaught raise: unreadable header fields, `ZeroDivisionError` on
`trace_size == 0`, `int(np.sqrt(negative))`, or `struct.pack('>H',
num_samples)` with `num_samples` outside `[0, 2^16)`.
`int(np.sqrt(total_traces))` is modelled as `Nat.sqrt`; the float64 `np.sqrt`
agrees with the integer floor square root for every `total_traces < 2^52`,
i.e. for every file a real filesystem can hold. -/
def standardize_segy_for_pzero (file : List Nat) :
    Option (List Nat × Nat × Nat) := do
  let p ← analyze_segy_parameters file
  let textual := pySlice file 0 3200
  let bh := pySlice file 3200 3600
  if p.trace_size = 0 then none
  else
    let total : Int := Int.fdiv ((file.length : Int) - 3600) p.trace_size
    if total < 0 then none
    else
      let gridSize := Nat.sqrt total.toNat
      if p.num_samples < 0 ∨ 65536 ≤ p.num_samples then none
      else
        let ns := p.num_samples.toNat
        let bh1 := setSlice bh 20 22 (packBE 2 ns)
        let bh2 := setSlice bh1 24 26 (packBE 2 5)
        let bh3 := setSlice bh2 16 18 (packBE 2 4003)
        let bh4 := setSlice bh3 300 302 (packBE 2 2)
        let loops := gridOuterLoop file ns gridSize 0 3600 gridSize
        return (textual ++ bh4 ++ loops.1.flatten, loops.1.length, gridSize)

/-- One record of the analyzer's trace walk (source lines 305–328). -/
structure AnalyzedTrace where
  samples : Nat
  ilineId : Nat
  xlineId : Nat
  size : Nat
deriving DecidableEq, Repr

/-- The analyzer's trace walk (source lines 305–328), fueled like the
scanner.  A trace is recorded as soon as its 240-byte header is read — the
walk seeks past the end of the file without checking that the declared data
is present.  The wildcard fallback is the `except … break` of the source. -/
def analyzeWalk (file : List Nat) : Nat → Nat → List AnalyzedTrace
  | _, 0 => []
  | pos, fuel + 1 =>
    if pos < file.length then
      let hdr := readAt file pos 240
      if hdr.length ≠ 240 then []
      else
        match beU16 (pySlice hdr 114 116), beU16 (pySlice hdr 188 190),
              beU16 (pySlice hdr 192 194) with
        | some ts, some il, some xl =>
          ⟨ts, il, xl, 240 + ts * 4⟩ :: analyzeWalk file (pos + (240 + ts * 4)) fuel
        | _, _, _ => []
    else []

/-- The report assembled by `analyze_segy_file` (source lines 258–360); the
inline/crossline sets are kept as the recorded value lists (their min/max,
printed by the source, are derived values). -/
structure AnalysisReport where
  actualTraces : Nat
  expected : Int
  revision : Nat
  sizes : List Nat
  ilineIds : List Nat
  xlineIds : List Nat
deriving DecidableEq, Repr

/-- Model of `analyze_segy_file(file_path)` (source lines 258–360).  `.error
.emptyMinMax` is the uncaught `ValueError` from `min(inline_range)` on an
empty set (line 340); `.error .divByZero` the `ZeroDivisionError` of line
288 when `num_samples = -60` makes `trace_size = 0`. -/
def analyze_segy_file (file : List Nat) : Except SegyError AnalysisReport :=
  match get_binary_header_details (pySlice file 3200 3600) with
  | none => .error .headerReadError
  | some d =>
    match beU16 (pySlice (pySlice file 3200 3600) 300 302) with
    | none => .error .headerReadError
    | some rev =>
      let trace_size : Int := 240 + d.num_samples * 4
      if trace_size = 0 then .error .divByZero
      else
        let expected : Int := Int.fdiv ((file.length : Int) - 3600) trace_size
        let traces := analyzeWalk file 3600 (file.length + 1)
        match traces with
        | [] => .error .emptyMinMax
        | _ :: _ =>
          .ok ⟨traces.length, expected, rev, traces.map (·.size),
               traces.map (·.ilineId), traces.map (·.xlineId)⟩

/-- Modelled from the spec: the Sample Codec's decode mapping as §4.2 words
it — pad a (≤ 4 byte) chunk with trailing zero bytes, then: format 1 = the
signed big-endian 16-bit integer of the first 2 bytes only; format 2 = the
signed big-endian 32-bit integer of all 4 bytes; formats 3 and 5 = the
big-endian IEEE-754 float32 (its bits); any other code = 0.  Used only to be
compared against the source-side `decodeSample`. -/
def specDecodeVal (fc : Nat) (chunk : List Nat) : SampleVal :=
  let b := fun i => chunk.getD i 0
  if fc = 1 then .intVal (toSigned16 (256 * b 0 + b 1))
  else if fc = 2 then
    .intVal (toSigned32 (16777216 * b 0 + 65536 * b 1 + 256 * b 2 + b 3))
  else if fc = 3 ∨ fc = 5 then
    .floatBits (16777216 * b 0 + 65536 * b 1 + 256 * b 2 + b 3)
  else .intVal 0

/-- The binary32 bits of a decoded sample value (an integer is converted,
float bits are kept). -/
def sampleBits : SampleVal → Nat
  | .intVal z => toF32bits z
  | .floatBits b => b

/-- A 3600-byte all-zero file: just the two headers, empty trace region. -/
def exHeadersOnly : List Nat := List.replicate 3600 0

/-- A minimal accepted Fix-Up input: 3600 header bytes with
`num_samples = 1` (file bytes 3220–3222) and `format_code = 5` (3224–3226),
followed by one complete trace: a 240-byte trace header declaring 1 sample
(bytes 114–116 of the trace header) and 4 data bytes holding the float 1.0
(bits `0x3F800000`).  3844 bytes in total. -/
def exOneTrace : List Nat :=
  List.replicate 3220 0 ++ [0, 1] ++ [0, 0] ++ [0, 5] ++ List.replicate 374 0
    ++ (List.replicate 114 0 ++ [0, 1] ++ List.replicate 124 0)
    ++ [63, 128, 0, 0]

/-- The output file the Fix-Up Rewriter produces from `exOneTrace`. -/
def exOneTraceOut : List Nat := (validate_and_fix_segy exOneTrace).toOption.getD []

/-- A 3840-byte file: all-zero headers, then exactly 240 bytes — a single
trace header that declares 1 sample (so its 244-byte trace does not fit in
the 240 remaining bytes: the Trace Scanner finds zero complete traces). -/
def exTruncatedTrace : List Nat :=
  List.replicate 3715 0 ++ [1] ++ List.replicate 124 0

/-- A 3600-byte file whose binary-header `num_samples` bytes are
`0x80 0x00`: unsigned value 32768, signed value -32768. -/
def exHighBit : List Nat :=
  List.replicate 3220 0 ++ [128] ++ List.replicate 379 0

/-- An all-zero 400-byte binary header buffer. -/
def bhZero : List Nat := List.replicate 400 0

lemma packBE_length (w v : Nat) : (packBE w v).length = w := by
  induction w generalizing v with
  | zero => rfl
  | succ w ih => simp [packBE, ih]

lemma foldl_packBE (w v a : Nat) :
    List.foldl (fun acc b => 256 * acc + b) a (packBE w v) =
      a * 256 ^ w + v % 256 ^ w := by
  induction w generalizing v a with
  | zero => simp [packBE, Nat.mod_one]
  | succ w ih =>
    simp only [packBE, List.foldl_cons, ih]
    have h : (256 : Nat) ^ (w + 1) = 256 ^ w * 256 := by ring
    rw [h, Nat.mod_mul]
    ring

lemma unBE_packBE {w v : Nat} (h : v < 256 ^ w) : unBE (packBE w v) = v := by
  unfold unBE
  rw [foldl_packBE]
  simp [Nat.mod_eq_of_lt h]

lemma pySlice_length (l : List Nat) (a b : Nat) :
    (pySlice l a b).length = min (b - a) (l.length - a) := by
  simp [pySlice]

lemma beUBE_of_length {w : Nat} {bs : List Nat} (h : bs.length = w) :
    beUBE w bs = some (unBE bs) := by
  simp [beUBE, h]

lemma getD_drop (l : List Nat) (m i d : Nat) :
    (l.drop m).getD i d = l.getD (m + i) d := by
  simp [List.getD_eq_getElem?_getD, List.getElem?_drop]

lemma take_two_eq (l : List Nat) (h : 2 ≤ l.length) :
    l.take 2 = [l.getD 0 0, l.getD 1 0] := by
  rcases l with _ | ⟨a, _ | ⟨b, t⟩⟩
  · simp at h
  · simp at h
  · simp [List.getD]

lemma unBE_two (a b : Nat) : unBE [a, b] = 256 * a + b := by
  simp [unBE]

lemma unBE_four (a b c d : Nat) :
    unBE [a, b, c, d] = 16777216 * a + 65536 * b + 256 * c + d := by
  simp [unBE]
  ring

lemma beU16_readAt (file : List Nat) (pos off : Nat)
    (h : pos + off + 2 ≤ file.length) (hoff : off + 2 ≤ 240) :
    beU16 (pySlice (readAt file pos 240) off (off + 2)) =
      some (256 * file.getD (pos + off) 0 + file.getD (pos + off + 1) 0) := by
  have h1 : pySlice (readAt file pos 240) off (off + 2) =
      (file.drop (pos + off)).take 2 := by
    unfold pySlice readAt
    rw [List.drop_take, List.drop_drop, List.take_take]
    congr 1
    omega
  rw [h1, take_two_eq _ (by simp [List.length_drop]; omega)]
  rw [getD_drop, getD_drop]
  simp [beU16, beUBE, unBE_two]

lemma readAt_length_of_le {file : List Nat} {pos : Nat}
    (h : pos + 240 ≤ file.length) : (readAt file pos 240).length = 240 := by
  simp [readAt, List.length_take, List.length_drop]
  omega

lemma scanFromF_fuel (file : List Nat) (ns : Nat) :
    ∀ f1 f2 pos, file.length - pos < f1 → file.length - pos < f2 →
      scanFromF file ns pos f1 = scanFromF file ns pos f2 := by
  intro f1
  induction f1 with
  | zero => intro f2 pos h1 _; omega
  | succ f1 ih =>
    intro f2 pos h1 h2
    rcases f2 with _ | f2
    · omega
    · simp only [scanFromF]
      by_cases hstop : pos + 240 > file.length
      · simp [hstop]
      · have hlen : (readAt file pos 240).length = 240 :=
          readAt_length_of_le (by omega)
        simp only [hstop, if_false, hlen, ne_eq, not_true_eq_false, ite_false,
          reduceIte]
        rcases hbe : beU16 (pySlice (readAt file pos 240) 114 116) with _ | ts0
        · rfl
        · show (if pos + (240 + (if ts0 = 0 then ns else ts0) * 4) > file.length then []
              else (⟨pos, 240 + (if ts0 = 0 then ns else ts0) * 4,
                  if ts0 = 0 then ns else ts0⟩ : TraceRecord) ::
                scanFromF file ns (pos + (240 + (if ts0 = 0 then ns else ts0) * 4)) f1)
            = (if pos + (240 + (if ts0 = 0 then ns else ts0) * 4) > file.length then []
              else (⟨pos, 240 + (if ts0 = 0 then ns else ts0) * 4,
                  if ts0 = 0 then ns else ts0⟩ : TraceRecord) ::
                scanFromF file ns (pos + (240 + (if ts0 = 0 then ns else ts0) * 4)) f2)
          by_cases hfit : pos + (240 + (if ts0 = 0 then ns else ts0) * 4) > file.length
          · rw [if_pos hfit, if_pos hfit]
          · rw [if_neg hfit, if_neg hfit]
            refine congrArg _ (ih f2 _ ?_ ?_) <;>
              (simp only [not_lt] at hfit; split <;> split at hfit <;> omega)

lemma scanFromF_succ (file : List Nat) (ns pos fuel : Nat) :
    scanFromF file ns pos (fuel + 1) =
      if pos + 240 > file.length then []
      else if (readAt file pos 240).length ≠ 240 then []
      else
        match beU16 (pySlice (readAt file pos 240) 114 116) with
        | none => []
        | some ts0 =>
          if pos + (240 + (if ts0 = 0 then ns else ts0) * 4) > file.length then []
          else
            (⟨pos, 240 + (if ts0 = 0 then ns else ts0) * 4,
                if ts0 = 0 then ns else ts0⟩ : TraceRecord) ::
              scanFromF file ns (pos + (240 + (if ts0 = 0 then ns else ts0) * 4)) fuel := rfl

/-- C4: the Trace Scanner starting at any offset produces exactly the
sequence defined by the spec's iteration: stop when fewer than 240 bytes
remain; otherwise read the declared sample count from bytes 114–116 of the
240-byte trace header (substituting the binary header's global `ns` when it
is 0), set `trace_size = 240 + count * 4`, stop when that size exceeds the
remaining file length, else record `{position, size, count}` and continue at
`pos + trace_size`.  Since `scanTraces` is total, this self-referential
unfolding equation determines the whole sequence. -/
theorem scanner_follows_spec_iteration (file : List Nat) (ns pos : Nat) :
    scanTraces file ns pos =
      if file.length - pos < 240 then []
      else
        let declared := 256 * file.getD (pos + 114) 0 + file.getD (pos + 115) 0
        let cnt := if declared = 0 then ns else declared
        let tsz := 240 + cnt * 4
        if file.length - pos < tsz then []
        else ⟨pos, tsz, cnt⟩ :: scanTraces file ns (pos + tsz) := by
  have hstep : scanTraces file ns pos = scanFromF file ns pos (file.length + 1) := rfl
  by_cases h240 : file.length - pos < 240
  · rw [hstep, scanFromF_succ, if_pos (by omega : pos + 240 > file.length), if_pos h240]
  · have hlen : (readAt file pos 240).length = 240 :=
      readAt_length_of_le (by omega)
    have hread : beU16 (pySlice (readAt file pos 240) 114 116) =
        some (256 * file.getD (pos + 114) 0 + file.getD (pos + 115) 0) := by
      have := beU16_readAt file pos 114 (by omega) (by omega)
      simpa using this
    rw [hstep, scanFromF_succ, if_neg (by omega : ¬pos + 240 > file.length),
      if_neg h240, if_neg (by rw [hlen]; simp), hread]
    show (if pos + (240 + (if (256 * file.getD (pos + 114) 0 + file.getD (pos + 115) 0) = 0
            then ns else 256 * file.getD (pos + 114) 0 + file.getD (pos + 115) 0) * 4) >
            file.length then []
          else (⟨pos, 240 + (if (256 * file.getD (pos + 114) 0 + file.getD (pos + 115) 0) = 0
              then ns else 256 * file.getD (pos + 114) 0 + file.getD (pos + 115) 0) * 4,
              if (256 * file.getD (pos + 114) 0 + file.getD (pos + 115) 0) = 0
              then ns else 256 * file.getD (pos + 114) 0 + file.getD (pos + 115) 0⟩ :
                TraceRecord) ::
            scanFromF file ns (pos + (240 + (if (256 * file.getD (pos + 114) 0 +
                file.getD (pos + 115) 0) = 0
              then ns else 256 * file.getD (pos + 114) 0 + file.getD (pos + 115) 0) * 4))
              file.length)
        = (if file.length - pos < 240 + (if (256 * file.getD (pos + 114) 0 +
              file.getD (pos + 115) 0) = 0
            then ns else 256 * file.getD (pos + 114) 0 + file.getD (pos + 115) 0) * 4 then []
          else (⟨pos, 240 + (if (256 * file.getD (pos + 114) 0 + file.getD (pos + 115) 0) = 0
              then ns else 256 * file.getD (pos + 114) 0 + file.getD (pos + 115) 0) * 4,
              if (256 * file.getD (pos + 114) 0 + file.getD (pos + 115) 0) = 0
              then ns else 256 * file.getD (pos + 114) 0 + file.getD (pos + 115) 0⟩ :
                TraceRecord) ::
            scanTraces file ns (pos + (240 + (if (256 * file.getD (pos + 114) 0 +
                file.getD (pos + 115) 0) = 0
              then ns else 256 * file.getD (pos + 114) 0 + file.getD (pos + 115) 0) * 4)))
    generalize (if (256 * file.getD (pos + 114) 0 + file.getD (pos + 115) 0) = 0
        then ns else 256 * file.getD (pos + 114) 0 + file.getD (pos + 115) 0) = c
    by_cases hfit : file.length - pos < 240 + c * 4
    · rw [if_pos (by omega : pos + (240 + c * 4) > file.length), if_pos hfit]
    · rw [if_neg (by omega : ¬pos + (240 + c * 4) > file.length), if_neg hfit]
      refine congrArg _ ?_
      exact scanFromF_fuel file ns _ _ _ (by omega) (by omega)

/-- C3: the Sample Codec decodes a (≤ 4)-byte chunk exactly as the spec
states — trailing-zero padding first (never a failure), format 1 from only
the first 2 bytes as a signed big-endian 16-bit integer, format 2 as a
signed big-endian 32-bit integer, formats 3 and 5 as the big-endian IEEE-754
float32, every other code (and the absorbed decode error) as 0 — and the
encoded output is the decoded value as a big-endian IEEE-754 float32. -/
theorem sample_codec_matches_spec (fc : Nat) (chunk : List Nat)
    (h : chunk.length ≤ 4) :
    decodeSample fc (ljust4 chunk) = specDecodeVal fc chunk ∧
    processChunk fc chunk = packBE 4 (sampleBits (specDecodeVal fc chunk)) := by
  have hdec : decodeSample fc (ljust4 chunk) = specDecodeVal fc chunk := by
    rcases chunk with _ | ⟨a, _ | ⟨b, _ | ⟨c, _ | ⟨d, rest⟩⟩⟩⟩
    · simp [decodeSample, specDecodeVal, ljust4, beI16, beI32, beU32, beUBE,
        unBE, List.getD]
    · by_cases h1 : fc = 1 <;> by_cases h2 : fc = 2 <;>
        simp [decodeSample, specDecodeVal, ljust4, beI16, beI32, beU32, beUBE,
          unBE_two, unBE_four, List.getD, h1, h2]
    · by_cases h1 : fc = 1 <;> by_cases h2 : fc = 2 <;>
        simp [decodeSample, specDecodeVal, ljust4, beI16, beI32, beU32, beUBE,
          unBE_two, unBE_four, List.getD, h1, h2]
    · by_cases h1 : fc = 1 <;> by_cases h2 : fc = 2 <;>
        simp [decodeSample, specDecodeVal, ljust4, beI16, beI32, beU32, beUBE,
          unBE_two, unBE_four, List.getD, h1, h2]
    · have hrest : rest = [] := by
        simp only [List.length_cons] at h
        exact List.eq_nil_of_length_eq_zero (by omega)
      subst hrest
      by_cases h1 : fc = 1 <;> by_cases h2 : fc = 2 <;>
        simp [decodeSample, specDecodeVal, ljust4, beI16, beI32, beU32, beUBE,
          unBE_two, unBE_four, List.getD, h1, h2]
  refine ⟨hdec, ?_⟩
  rw [processChunk, hdec]
  cases specDecodeVal fc chunk <;> rfl

/-- Witness for the codec theorem at format 1 and the 3-byte chunk
`[0x80, 0x01, 0x07]` (decoded value `-32767` from the first two padded
bytes only). -/
theorem sample_codec_matches_spec_witness :
    decodeSample 1 (ljust4 [128, 1, 7]) = specDecodeVal 1 [128, 1, 7] ∧
    processChunk 1 [128, 1, 7] =
      packBE 4 (sampleBits (specDecodeVal 1 [128, 1, 7])) :=
  sample_codec_matches_spec 1 [128, 1, 7] (by decide)

lemma getD_replicate (n a i d : Nat) :
    (List.replicate n a).getD i d = if i < n then a else d := by
  rw [List.getD_eq_getElem?_getD, List.getElem?_replicate]
  split <;> rfl

lemma exHighBit_getD (k : Nat) : exHighBit.getD k 0 = if k = 3220 then 128 else 0 := by
  rw [List.getD_eq_getElem?_getD, exHighBit]
  simp only [List.getElem?_append, List.getElem?_cons, List.getElem?_replicate,
    List.getElem?_nil, List.length_replicate, List.length_append, List.length_cons,
    List.length_nil]
  split_ifs <;> first
  | rfl
  | (exfalso; omega)

lemma exTruncatedTrace_getD (k : Nat) :
    exTruncatedTrace.getD k 0 = if k = 3715 then 1 else 0 := by
  rw [List.getD_eq_getElem?_getD, exTruncatedTrace]
  simp only [List.getElem?_append, List.getElem?_cons, List.getElem?_replicate,
    List.getElem?_nil, List.length_replicate, List.length_append, List.length_cons,
    List.length_nil]
  split_ifs <;> first
  | rfl
  | (exfalso; omega)

set_option maxHeartbeats 1600000 in
lemma exOneTrace_getD (k : Nat) :
    exOneTrace.getD k 0 =
      if k = 3221 then 1 else if k = 3225 then 5 else if k = 3715 then 1
      else if k = 3840 then 63 else if k = 3841 then 128 else 0 := by
  rw [List.getD_eq_getElem?_getD, exOneTrace]
  simp only [List.getElem?_append, List.getElem?_cons, List.getElem?_replicate,
    List.getElem?_nil, List.length_replicate, List.length_append, List.length_cons,
    List.length_nil]
  split_ifs <;> first
  | rfl
  | (exfalso; omega)

lemma exHeadersOnly_getD (k : Nat) : exHeadersOnly.getD k 0 = 0 := by
  rw [exHeadersOnly, getD_replicate]
  split <;> rfl

lemma exHighBit_length : exHighBit.length = 3600 := by
  norm_num [exHighBit, List.length_append, List.length_replicate, List.length_cons]

lemma exTruncatedTrace_length : exTruncatedTrace.length = 3840 := by
  norm_num [exTruncatedTrace, List.length_append, List.length_replicate, List.length_cons]

lemma exOneTrace_length : exOneTrace.length = 3844 := by
  norm_num [exOneTrace, List.length_append, List.length_replicate, List.length_cons]

lemma exHeadersOnly_length : exHeadersOnly.length = 3600 := by
  norm_num [exHeadersOnly, List.length_replicate]

lemma pySlice_pySlice (l : List Nat) (a b c d : Nat) (h : a + d ≤ b) :
    pySlice (pySlice l a b) c d = pySlice l (a + c) (a + d) := by
  unfold pySlice
  rw [List.drop_take, List.drop_drop, List.take_take]
  congr 1
  omega

lemma take_four_eq (l : List Nat) (h : 4 ≤ l.length) :
    l.take 4 = [l.getD 0 0, l.getD 1 0, l.getD 2 0, l.getD 3 0] := by
  rcases l with _ | ⟨a, _ | ⟨b, _ | ⟨c, _ | ⟨d, t⟩⟩⟩⟩ <;> simp_all [List.getD]

lemma pySlice_two (l : List Nat) (a b : Nat) (hb : b = a + 2) (h : b ≤ l.length) :
    pySlice l a b = [l.getD a 0, l.getD (a + 1) 0] := by
  subst hb
  unfold pySlice
  rw [show a + 2 - a = 2 by omega,
    take_two_eq _ (by rw [List.length_drop]; omega), getD_drop, getD_drop]
  norm_num

lemma pySlice_four (l : List Nat) (a b : Nat) (hb : b = a + 4) (h : b ≤ l.length) :
    pySlice l a b = [l.getD a 0, l.getD (a + 1) 0, l.getD (a + 2) 0, l.getD (a + 3) 0] := by
  subst hb
  unfold pySlice
  rw [show a + 4 - a = 4 by omega,
    take_four_eq _ (by rw [List.length_drop]; omega), getD_drop, getD_drop, getD_drop,
    getD_drop]
  norm_num

lemma bh_u16 (file : List Nat) (k j : Nat) (hj : j = k + 2) (hk : j ≤ 400)
    (hlen : 3200 + j ≤ file.length) :
    beU16 (pySlice (pySlice file 3200 3600) k j) =
      some (256 * file.getD (3200 + k) 0 + file.getD (3200 + k + 1) 0) := by
  subst hj
  rw [pySlice_pySlice _ _ _ _ _ (by omega),
    pySlice_two _ _ _ (by omega) (by omega)]
  simp [beU16, beUBE, unBE_two]

lemma bh_i16 (file : List Nat) (k j : Nat) (hj : j = k + 2) (hk : j ≤ 400)
    (hlen : 3200 + j ≤ file.length) :
    beI16 (pySlice (pySlice file 3200 3600) k j) =
      some (toSigned16 (256 * file.getD (3200 + k) 0 + file.getD (3200 + k + 1) 0)) := by
  subst hj
  rw [pySlice_pySlice _ _ _ _ _ (by omega),
    pySlice_two _ _ _ (by omega) (by omega)]
  simp [beI16, beUBE, unBE_two]

lemma bh_i32 (file : List Nat) (k j : Nat) (hj : j = k + 4) (hk : j ≤ 400)
    (hlen : 3200 + j ≤ file.length) :
    beI32 (pySlice (pySlice file 3200 3600) k j) =
      some (toSigned32 (16777216 * file.getD (3200 + k) 0 +
        65536 * file.getD (3200 + k + 1) 0 + 256 * file.getD (3200 + k + 2) 0 +
        file.getD (3200 + k + 3) 0)) := by
  subst hj
  rw [pySlice_pySlice _ _ _ _ _ (by omega),
    pySlice_four _ _ _ (by omega) (by omega)]
  simp [beI32, beUBE, unBE_four]

lemma read_binary_header_eval (file : List Nat) (hlen : 3226 ≤ file.length) :
    read_binary_header file = some
      (256 * file.getD 3216 0 + file.getD 3217 0,
       256 * file.getD 3220 0 + file.getD 3221 0,
       256 * file.getD 3224 0 + file.getD 3225 0) := by
  unfold read_binary_header read_binary_header_fields
  rw [bh_u16 file 16 18 (by norm_num) (by norm_num) (by omega),
    bh_u16 file 20 22 (by norm_num) (by norm_num) (by omega),
    bh_u16 file 24 26 (by norm_num) (by norm_num) (by omega)]
  norm_num

lemma get_binary_header_details_eval (file : List Nat) (hlen : 3226 ≤ file.length) :
    get_binary_header_details (pySlice file 3200 3600) = some
      ⟨toSigned32 (16777216 * file.getD 3200 0 + 65536 * file.getD 3201 0 +
          256 * file.getD 3202 0 + file.getD 3203 0),
       toSigned32 (16777216 * file.getD 3204 0 + 65536 * file.getD 3205 0 +
          256 * file.getD 3206 0 + file.getD 3207 0),
       toSigned32 (16777216 * file.getD 3208 0 + 65536 * file.getD 3209 0 +
          256 * file.getD 3210 0 + file.getD 3211 0),
       toSigned16 (256 * file.getD 3212 0 + file.getD 3213 0),
       toSigned16 (256 * file.getD 3214 0 + file.getD 3215 0),
       toSigned16 (256 * file.getD 3216 0 + file.getD 3217 0),
       toSigned16 (256 * file.getD 3218 0 + file.getD 3219 0),
       toSigned16 (256 * file.getD 3220 0 + file.getD 3221 0),
       toSigned16 (256 * file.getD 3222 0 + file.getD 3223 0),
       toSigned16 (256 * file.getD 3224 0 + file.getD 3225 0)⟩ := by
  unfold get_binary_header_details
  rw [bh_i32 file 0 4 (by norm_num) (by norm_num) (by omega),
    bh_i32 file 4 8 (by norm_num) (by norm_num) (by omega),
    bh_i32 file 8 12 (by norm_num) (by norm_num) (by omega),
    bh_i16 file 12 14 (by norm_num) (by norm_num) (by omega),
    bh_i16 file 14 16 (by norm_num) (by norm_num) (by omega),
    bh_i16 file 16 18 (by norm_num) (by norm_num) (by omega),
    bh_i16 file 18 20 (by norm_num) (by norm_num) (by omega),
    bh_i16 file 20 22 (by norm_num) (by norm_num) (by omega),
    bh_i16 file 22 24 (by norm_num) (by norm_num) (by omega),
    bh_i16 file 24 26 (by norm_num) (by norm_num) (by omega)]
  norm_num

lemma read_binary_header_exOneTrace :
    read_binary_header exOneTrace = some (0, 1, 5) := by
  rw [read_binary_header_eval _ (by rw [exOneTrace_length]; norm_num)]
  simp only [exOneTrace_getD]
  norm_num

lemma read_binary_header_exHeadersOnly :
    read_binary_header exHeadersOnly = some (0, 0, 0) := by
  rw [read_binary_header_eval _ (by rw [exHeadersOnly_length]; norm_num)]
  simp only [exHeadersOnly_getD]

lemma read_binary_header_exHighBit :
    read_binary_header exHighBit = some (0, 32768, 0) := by
  rw [read_binary_header_eval _ (by rw [exHighBit_length]; norm_num)]
  simp only [exHighBit_getD]
  norm_num

lemma read_binary_header_exTruncatedTrace :
    read_binary_header exTruncatedTrace = some (0, 0, 0) := by
  rw [read_binary_header_eval _ (by rw [exTruncatedTrace_length]; norm_num)]
  simp only [exTruncatedTrace_getD]
  norm_num

lemma details_exTruncatedTrace :
    get_binary_header_details (pySlice exTruncatedTrace 3200 3600) =
      some ⟨0, 0, 0, 0, 0, 0, 0, 0, 0, 0⟩ := by
  rw [get_binary_header_details_eval _ (by rw [exTruncatedTrace_length]; norm_num)]
  simp only [exTruncatedTrace_getD]
  norm_num [toSigned16, toSigned32]

lemma details_exHeadersOnly :
    get_binary_header_details (pySlice exHeadersOnly 3200 3600) =
      some ⟨0, 0, 0, 0, 0, 0, 0, 0, 0, 0⟩ := by
  rw [get_binary_header_details_eval _ (by rw [exHeadersOnly_length]; norm_num)]
  simp only [exHeadersOnly_getD]
  norm_num [toSigned16, toSigned32]

lemma params_exHighBit :
    analyze_segy_parameters exHighBit = some ⟨-32768, 0, 0, -130832⟩ := by
  unfold analyze_segy_parameters
  rw [get_binary_header_details_eval _ (by rw [exHighBit_length]; norm_num)]
  simp only [exHighBit_getD]
  norm_num [toSigned16, toSigned32]

lemma params_exHeadersOnly :
    analyze_segy_parameters exHeadersOnly = some ⟨0, 0, 0, 240⟩ := by
  unfold analyze_segy_parameters
  rw [details_exHeadersOnly]
  norm_num

lemma setSlice_length_in (l : List Nat) (a b : Nat) (bs : List Nat)
    (hab : a ≤ b) (hb : b ≤ l.length) (hbs : bs.length = b - a) :
    (setSlice l a b bs).length = l.length := by
  simp [setSlice, List.length_append, List.length_take, List.length_drop]
  omega

lemma setSlice_append_of_le (l : List Nat) (a b : Nat) (bs : List Nat)
    (hab : a ≤ b) (h : l.length ≤ a) : setSlice l a b bs = l ++ bs := by
  unfold setSlice
  rw [List.take_of_length_le h, List.drop_eq_nil_of_le (by omega), List.append_nil]

lemma processChunk_length (fc : Nat) (chunk : List Nat) :
    (processChunk fc chunk).length = 4 := by
  unfold processChunk
  cases decodeSample fc (ljust4 chunk) <;> simp [packFloatVal, packBE_length]

lemma encodeChunksF_length_mul4 (fc : Nat) :
    ∀ fuel k bs, bs.length = 4 * k → k ≤ fuel →
      (encodeChunksF fc fuel bs).length = 4 * k := by
  intro fuel
  induction fuel with
  | zero =>
    intro k bs hk hf
    rcases bs with _ | ⟨b, rest⟩
    · simp [encodeChunksF]; omega
    · simp at hk; omega
  | succ fuel ih =>
    intro k bs hk hf
    rcases bs with _ | ⟨b, rest⟩
    · simp at hk; simp [encodeChunksF]; omega
    · rcases k with _ | k
      · simp at hk
      · have hkf : k ≤ fuel := by omega
        have hlen2 : ((b :: rest).drop 4).length = 4 * k := by
          simp only [List.length_drop, List.length_cons]
          simp only [List.length_cons] at hk
          omega
        simp only [encodeChunksF, List.length_append, processChunk_length]
        rw [ih k ((b :: rest).drop 4) hlen2 hkf]
        omega

lemma encodeChunks_length_mul4 (fc k : Nat) (bs : List Nat) (h : bs.length = 4 * k) :
    (encodeChunks fc bs).length = 4 * k := by
  unfold encodeChunks
  exact encodeChunksF_length_mul4 fc _ k bs h (by omega)

lemma readAt_length (file : List Nat) (pos n : Nat) :
    (readAt file pos n).length = min n (file.length - pos) := by
  simp [readAt]

lemma beUBE_none {w : Nat} {bs : List Nat} (h : bs.length ≠ w) :
    beUBE w bs = none := by
  simp [beUBE, h]

lemma validate_and_fix_structure (file : List Nat) (si ns fc : Nat)
    (hlen : ¬file.length < 3600) (hr : read_binary_header file = some (si, ns, fc))
    (hns : ¬ns = 0) :
    validate_and_fix_segy file = .ok
      (pySlice file 0 3200 ++
        setSlice (setSlice (setSlice (setSlice (pySlice file 3200 3600) 300 302
          (packBE 2 2)) 20 22 (packBE 2 ns)) 24 26 (packBE 2 5)) 3212 3216
          (packBE 4 (scanTraces file ns 3600).length) ++
        ((scanTraces file ns 3600).map (emitTrace file ns fc)).flatten) := by
  unfold validate_and_fix_segy
  rw [if_neg hlen, hr]
  show (if ns = 0 then Except.error SegyError.invalidSampleCount
      else Except.ok
        (pySlice file 0 3200 ++
          setSlice (setSlice (setSlice (setSlice (pySlice file 3200 3600) 300 302
            (packBE 2 2)) 20 22 (packBE 2 ns)) 24 26 (packBE 2 5)) 3212 3216
            (packBE 4 (scanTraces file ns 3600).length) ++
          ((scanTraces file ns 3600).map (emitTrace file ns fc)).flatten)) = _
  rw [if_neg hns]

lemma scan_exOneTrace : scanTraces exOneTrace 1 3600 = [⟨3600, 244, 1⟩] := by
  have hL : exOneTrace.length = 3844 := exOneTrace_length
  have hread : beU16 (pySlice (readAt exOneTrace 3600 240) 114 116) = some 1 := by
    have h := beU16_readAt exOneTrace 3600 114 (by omega) (by omega)
    simp only [show (3600 : Nat) + 114 = 3714 by norm_num,
      show (3600 : Nat) + 114 + 1 = 3715 by norm_num] at h
    rw [h]
    simp only [exOneTrace_getD]
    norm_num
  unfold scanTraces
  rw [hL, scanFromF_succ, if_neg (by omega), if_neg (by
      rw [readAt_length_of_le (by omega)]; simp), hread]
  show (if 3600 + (240 + (if (1 : Nat) = 0 then 1 else 1) * 4) > exOneTrace.length
      then ([] : List TraceRecord)
      else ⟨3600, 240 + (if (1 : Nat) = 0 then 1 else 1) * 4, if (1 : Nat) = 0 then 1 else 1⟩ ::
        scanFromF exOneTrace 1 (3600 + (240 + (if (1 : Nat) = 0 then 1 else 1) * 4)) 3844) = _
  rw [if_neg (by rw [hL]; norm_num)]
  norm_num
  have hrest : scanFromF exOneTrace 1 3844 3844 = scanFromF exOneTrace 1 3844 (3843 + 1) :=
    scanFromF_fuel exOneTrace 1 _ _ _ (by omega) (by omega)
  rw [hrest, scanFromF_succ, if_pos (by omega)]

/-- The binary-header region the Fix-Up Rewriter writes for `exOneTrace`:
the three in-place field updates and then the trace-count bytes, which the
out-of-range slice assignment appends (404 bytes in total). -/
def exOneTraceHdr : List Nat :=
  setSlice (setSlice (setSlice (setSlice (pySlice exOneTrace 3200 3600) 300 302
    (packBE 2 2)) 20 22 (packBE 2 1)) 24 26 (packBE 2 5)) 3212 3216 (packBE 4 1)

/-- The single trace the Fix-Up Rewriter emits for `exOneTrace`. -/
def exOneTraceEmit : List Nat := emitTrace exOneTrace 1 5 ⟨3600, 244, 1⟩

lemma fixup_exOneTrace_eq :
    validate_and_fix_segy exOneTrace =
      .ok (pySlice exOneTrace 0 3200 ++ exOneTraceHdr ++ exOneTraceEmit) := by
  rw [validate_and_fix_structure exOneTrace 0 1 5 (by rw [exOneTrace_length]; norm_num)
    read_binary_header_exOneTrace (by norm_num)]
  rw [scan_exOneTrace]
  simp [exOneTraceHdr, exOneTraceEmit]

lemma exOneTraceOut_eq :
    exOneTraceOut = pySlice exOneTrace 0 3200 ++ exOneTraceHdr ++ exOneTraceEmit := by
  unfold exOneTraceOut
  rw [fixup_exOneTrace_eq]
  rfl

lemma bh3_exOneTrace_length :
    (setSlice (setSlice (setSlice (pySlice exOneTrace 3200 3600) 300 302
      (packBE 2 2)) 20 22 (packBE 2 1)) 24 26 (packBE 2 5)).length = 400 := by
  have h0 : (pySlice exOneTrace 3200 3600).length = 400 := by
    rw [pySlice_length, exOneTrace_length]
    norm_num
  rw [setSlice_length_in, setSlice_length_in, setSlice_length_in, h0] <;>
    simp [packBE_length, setSlice_length_in, h0]

lemma exOneTraceHdr_split :
    exOneTraceHdr =
      setSlice (setSlice (setSlice (pySlice exOneTrace 3200 3600) 300 302
        (packBE 2 2)) 20 22 (packBE 2 1)) 24 26 (packBE 2 5) ++ packBE 4 1 := by
  unfold exOneTraceHdr
  rw [setSlice_append_of_le _ _ _ _ (by omega) (by rw [bh3_exOneTrace_length]; omega)]

lemma exOneTraceHdr_length : exOneTraceHdr.length = 404 := by
  rw [exOneTraceHdr_split, List.length_append, bh3_exOneTrace_length, packBE_length]

lemma exOneTraceEmit_length : exOneTraceEmit.length = 244 := by
  unfold exOneTraceEmit emitTrace
  have h1 : (readAt exOneTrace 3600 240).length = 240 := by
    rw [readAt_length, exOneTrace_length]
    norm_num
  have h2 : (readAt exOneTrace (3600 + 240) (min 1 1 * 4)).length = 4 * 1 := by
    rw [readAt_length, exOneTrace_length]
    norm_num
  simp only [List.length_append]
  rw [setSlice_length_in _ _ _ _ (by omega) (by rw [h1]; norm_num)
    (by simp [packBE_length]), h1, encodeChunks_length_mul4 5 1 _ h2]
  simp

lemma pySlice_past_front (l1 l2 : List Nat) (a b : Nat) (h : l1.length = a) :
    pySlice (l1 ++ l2) a b = l2.take (b - a) := by
  unfold pySlice
  rw [List.drop_left' h]

lemma exOneTraceOut_length : exOneTraceOut.length = 3848 := by
  rw [exOneTraceOut_eq, List.length_append, List.length_append, exOneTraceHdr_length,
    exOneTraceEmit_length, pySlice_length, exOneTrace_length]
  norm_num

lemma exOneTraceOut_count_at_3600 :
    pySlice exOneTraceOut 3600 3604 = packBE 4 1 := by
  rw [exOneTraceOut_eq, exOneTraceHdr_split]
  have hTB : (pySlice exOneTrace 0 3200 ++
      setSlice (setSlice (setSlice (pySlice exOneTrace 3200 3600) 300 302
        (packBE 2 2)) 20 22 (packBE 2 1)) 24 26 (packBE 2 5)).length = 3600 := by
    rw [List.length_append, bh3_exOneTrace_length, pySlice_length, exOneTrace_length]
    norm_num
  rw [show pySlice exOneTrace 0 3200 ++
      (setSlice (setSlice (setSlice (pySlice exOneTrace 3200 3600) 300 302
        (packBE 2 2)) 20 22 (packBE 2 1)) 24 26 (packBE 2 5) ++ packBE 4 1) ++
      exOneTraceEmit =
      (pySlice exOneTrace 0 3200 ++
        setSlice (setSlice (setSlice (pySlice exOneTrace 3200 3600) 300 302
          (packBE 2 2)) 20 22 (packBE 2 1)) 24 26 (packBE 2 5)) ++
      (packBE 4 1 ++ exOneTraceEmit) by simp]
  rw [pySlice_past_front _ _ _ _ hTB, show (3604 : Nat) - 3600 = 4 by norm_num,
    List.take_left' (packBE_length 4 1)]

lemma exOneTraceOut_no_field_at_6412 :
    beU32 (pySlice exOneTraceOut 6412 6416) = none := by
  apply beUBE_none
  rw [pySlice_length, exOneTraceOut_length]
  norm_num

lemma exOneTraceOut_trace_region :
    pySlice exOneTraceOut 3604 3848 = exOneTraceEmit := by
  rw [exOneTraceOut_eq]
  have hTH : (pySlice exOneTrace 0 3200 ++ exOneTraceHdr).length = 3604 := by
    rw [List.length_append, exOneTraceHdr_length, pySlice_length, exOneTrace_length]
    norm_num
  rw [pySlice_past_front _ _ _ _ hTH, show (3848 : Nat) - 3604 = 244 by norm_num,
    List.take_of_length_le (by rw [exOneTraceEmit_length])]

/-- C1: the Fix-Up Rewriter does NOT place the scanner's trace count in a
u32 field at bytes 3212–3216 past the binary-header start.  On the accepted
input `exOneTrace` (one complete trace, so `actual_traces = 1`), the Python
slice assignment `binary_header[3212:3216] = pack('>L', 1)` on the 400-byte
bytearray appends the four bytes at buffer offset 400 — file offset 3600 of
the output — and the 3848-byte output ends long before file offset
3200 + 3212 = 6412, where the unpack of the claimed field finds an empty
slice and fails. -/
theorem fixup_trace_count_not_at_3212 :
    validate_and_fix_segy exOneTrace =
      .ok (pySlice exOneTrace 0 3200 ++ exOneTraceHdr ++ exOneTraceEmit) ∧
    scanTraces exOneTrace 1 3600 = [⟨3600, 244, 1⟩] ∧
    exOneTraceOut.length = 3848 ∧
    beU32 (pySlice exOneTraceOut (3200 + 3212) (3200 + 3216)) = none ∧
    pySlice exOneTraceOut 3600 3604 = packBE 4 1 :=
  ⟨fixup_exOneTrace_eq, scan_exOneTrace, exOneTraceOut_length,
    exOneTraceOut_no_field_at_6412, exOneTraceOut_count_at_3600⟩

/-- C2: on the accepted input `exOneTrace` (`num_samples = 1`, one scanned
trace) the Fix-Up output is 3848 bytes, not
`3600 + actual_traces * (240 + num_samples * 4) = 3844`: the written
binary-header region (output bytes 3200–3604) is 404 bytes, not 400,
because the trace-count bytes were appended to it.  The emitted trace itself
does occupy exactly `240 + num_samples * 4 = 244` bytes (the final 244
bytes of the output). -/
theorem fixup_output_size_includes_extra_four_bytes :
    read_binary_header exOneTrace = some (0, 1, 5) ∧
    exOneTraceOut.length = 3848 ∧
    (pySlice exOneTraceOut 3200 3604).length = 404 ∧
    pySlice exOneTraceOut 3604 3848 = exOneTraceEmit ∧
    exOneTraceEmit.length = 240 + 1 * 4 ∧
    (3848 : Nat) ≠ 3600 + 1 * (240 + 1 * 4) := by
  refine ⟨read_binary_header_exOneTrace, exOneTraceOut_length, ?_,
    exOneTraceOut_trace_region, ?_, by norm_num⟩
  · rw [pySlice_length, exOneTraceOut_length]
    norm_num
  · rw [exOneTraceEmit_length]

/-- C5: the Fix-Up Rewriter fails with the too-small error on any input
below 3600 bytes, and with the invalid-sample-count error when the binary
header declares `num_samples = 0` (`num_samples` is an unsigned 16-bit
field, so `≤ 0` means `= 0`); in the embedding an `.error` result is a raise
before the output file is opened (source line 210 runs only after both
checks), so no output file is created or modified. -/
theorem fixup_fails_before_output (file : List Nat) :
    (file.length < 3600 → validate_and_fix_segy file = .error .tooSmall) ∧
    (∀ si ns fc, ¬file.length < 3600 → read_binary_header file = some (si, ns, fc) →
      ns = 0 → validate_and_fix_segy file = .error .invalidSampleCount) := by
  constructor
  · intro h
    unfold validate_and_fix_segy
    rw [if_pos h]
  · intro si ns fc hlen hr hns
    unfold validate_and_fix_segy
    rw [if_neg hlen, hr]
    show (if ns = 0 then Except.error SegyError.invalidSampleCount
        else Except.ok
          (pySlice file 0 3200 ++
            setSlice (setSlice (setSlice (setSlice (pySlice file 3200 3600) 300 302
              (packBE 2 2)) 20 22 (packBE 2 ns)) 24 26 (packBE 2 5)) 3212 3216
              (packBE 4 (scanTraces file ns 3600).length) ++
            ((scanTraces file ns 3600).map (emitTrace file ns fc)).flatten)) = _
    rw [if_pos hns]

/-- Witness for C5: a 100-byte file fails too-small; the 3600-byte all-zero
file (declared sample count 0) fails invalid-sample-count. -/
theorem fixup_fails_before_output_witness :
    validate_and_fix_segy (List.replicate 100 0) = .error .tooSmall ∧
    validate_and_fix_segy exHeadersOnly = .error .invalidSampleCount :=
  ⟨(fixup_fails_before_output (List.replicate 100 0)).1 (by simp),
    (fixup_fails_before_output exHeadersOnly).2 0 0 0
      (by rw [exHeadersOnly_length]; norm_num) read_binary_header_exHeadersOnly rfl⟩

/-- Counterexample for C6: the claim quantifies over EVERY input file, but on
the empty file the Structural Validator never computes
`expected_trace_size` — the header unpack itself fails (`struct.error`), so
neither the claimed `StructuralError` nor the claimed error-free return
happens. -/
theorem validator_claim_fails_on_headerless_file :
    (¬∃ si ns fc, read_binary_header ([] : List Nat) = some (si, ns, fc)) ∧
    validate_segy_structure ([] : List Nat) = .error .headerReadError := by
  constructor
  · rintro ⟨si, ns, fc, h⟩
    rw [show read_binary_header ([] : List Nat) = none from rfl] at h
    exact Option.noConfusion h
  · rfl

/-- C6 (amended): for every input file whose binary-header fields parse
(which holds whenever the file has at least 3226 bytes), the Structural
Validator raises the size-mismatch error if and only if
`(file_size - 3600) mod (240 + num_samples*4) ≠ 0` (Python `%`, i.e.
`Int.emod`), and otherwise returns
`(num_samples, format, (file_size - 3600) / trace_size, trace_size)` without
error; shorter files fail earlier with a header-read error. -/
theorem validator_mismatch_iff_mod (file : List Nat) (si ns fc : Nat)
    (hr : read_binary_header file = some (si, ns, fc)) :
    (validate_segy_structure file = .error .structuralSizeMismatch ↔
      Int.emod ((file.length : Int) - 3600) ((240 + ns * 4 : Nat) : Int) ≠ 0) ∧
    (Int.emod ((file.length : Int) - 3600) ((240 + ns * 4 : Nat) : Int) = 0 →
      validate_segy_structure file =
        .ok (ns, fc, Int.ediv ((file.length : Int) - 3600) ((240 + ns * 4 : Nat) : Int),
          240 + ns * 4)) := by
  have heval : validate_segy_structure file =
      (if Int.emod ((file.length : Int) - 3600) ((240 + ns * 4 : Nat) : Int) ≠ 0
        then Except.error SegyError.structuralSizeMismatch
        else Except.ok (ns, fc,
          Int.ediv ((file.length : Int) - 3600) ((240 + ns * 4 : Nat) : Int),
          240 + ns * 4)) := by
    unfold validate_segy_structure
    rw [hr]
  rw [heval]
  by_cases hm : Int.emod ((file.length : Int) - 3600) ((240 + ns * 4 : Nat) : Int) = 0
  · rw [if_neg (by simpa using hm)]
    exact ⟨⟨fun h => Except.noConfusion h, fun h => absurd hm h⟩, fun _ => rfl⟩
  · rw [if_pos hm]
    exact ⟨⟨fun _ => hm, fun _ => rfl⟩, fun h => absurd h hm⟩

/-- Witness for the amended C6 at `exOneTrace` (3844 bytes, `num_samples=1`,
trace size 244, remaining 244 bytes): the validator accepts with one
expected trace. -/
theorem validator_mismatch_iff_mod_witness :
    validate_segy_structure exOneTrace =
      .ok (1, 5, Int.ediv ((exOneTrace.length : Int) - 3600) ((240 + 1 * 4 : Nat) : Int),
        240 + 1 * 4) :=
  (validator_mismatch_iff_mod exOneTrace 0 1 5 read_binary_header_exOneTrace).2
    (by rw [exOneTrace_length]; decide)

/-- Counterexample for C7: on a binary header whose `num_samples` bytes are
`0x80 0x00`, the Fix-Up extraction (`read_binary_header`, unsigned `'>H'`)
reads 32768, while the Grid-Standardize extraction
(`analyze_segy_parameters` via `get_binary_header_details`, signed `'>h'`)
reads -32768, and the derived trace sizes differ accordingly
(240 + 32768*4 = 131312 versus 240 - 32768*4 = -130832). -/
theorem grid_and_fixup_extraction_disagree :
    read_binary_header exHighBit = some (0, 32768, 0) ∧
    analyze_segy_parameters exHighBit = some ⟨-32768, 0, 0, -130832⟩ ∧
    ((32768 : Int) ≠ -32768) ∧ ((240 + 32768 * 4 : Int) ≠ -130832) :=
  ⟨read_binary_header_exHighBit, params_exHighBit, by decide, by decide⟩

/-- C7 (amended): for every input file of at least 3600 bytes whose three
fields all have their high bit clear (values < 32768 — in particular every
header a Fix-Up pass itself writes), the Grid-Standardize extraction yields
the same `{num_samples, sample_interval, format_code, trace_size}` values as
the Fix-Up extraction; when a field's top bit is set the Grid path reads it
as a negative signed 16-bit value while the Fix-Up path reads it unsigned,
and the two disagree. -/
theorem grid_extraction_agrees_on_small_fields (file : List Nat) (si ns fc : Nat)
    (hlen : 3600 ≤ file.length)
    (hr : read_binary_header file = some (si, ns, fc))
    (hsi : si < 32768) (hns : ns < 32768) (hfc : fc < 32768) :
    ∃ p, analyze_segy_parameters file = some p ∧
      p.sample_interval = (si : Int) ∧ p.num_samples = (ns : Int) ∧
      p.format_code = (fc : Int) ∧ p.trace_size = ((240 + ns * 4 : Nat) : Int) := by
  have heval := read_binary_header_eval file (by omega)
  rw [heval] at hr
  have h16 : 256 * file.getD 3216 0 + file.getD 3217 0 = si := by
    have := congrArg (fun o => (o.getD (0, 0, 0)).1) hr
    simpa using this
  have h20 : 256 * file.getD 3220 0 + file.getD 3221 0 = ns := by
    have := congrArg (fun o => (o.getD (0, 0, 0)).2.1) hr
    simpa using this
  have h24 : 256 * file.getD 3224 0 + file.getD 3225 0 = fc := by
    have := congrArg (fun o => (o.getD (0, 0, 0)).2.2) hr
    simpa using this
  unfold analyze_segy_parameters
  rw [get_binary_header_details_eval file (by omega)]
  refine ⟨_, rfl, ?_, ?_, ?_, ?_⟩ <;>
    simp only [h16, h20, h24, toSigned16, if_pos (by omega : si < 32768),
      if_pos (by omega : ns < 32768), if_pos (by omega : fc < 32768)]
  push_cast
  ring

/-- Witness for the amended C7 at the all-zero 3600-byte file: both
extractions agree on `(0, 0, 0)` and trace size 240. -/
theorem grid_extraction_agrees_on_small_fields_witness :
    ∃ p, analyze_segy_parameters exHeadersOnly = some p ∧
      p.sample_interval = ((0 : Nat) : Int) ∧ p.num_samples = ((0 : Nat) : Int) ∧
      p.format_code = ((0 : Nat) : Int) ∧ p.trace_size = ((240 + 0 * 4 : Nat) : Int) :=
  grid_extraction_agrees_on_small_fields exHeadersOnly 0 0 0
    (by rw [exHeadersOnly_length]) read_binary_header_exHeadersOnly
    (by norm_num) (by norm_num) (by norm_num)

lemma setSlice_extract (buf : List Nat) (off j : Nat) (bs : List Nat)
    (hj : j = off + bs.length) (h : j ≤ buf.length) :
    pySlice (setSlice buf off j bs) off j = bs := by
  have htl : (buf.take off).length = off := by rw [List.length_take]; omega
  unfold setSlice pySlice
  rw [List.append_assoc, List.drop_left' htl, show j - off = bs.length by omega,
    List.take_left' rfl]

lemma setSlice_take_front (buf : List Nat) (off j : Nat) (bs : List Nat)
    (h : off ≤ buf.length) :
    (setSlice buf off j bs).take off = buf.take off := by
  have htl : (buf.take off).length = off := by rw [List.length_take]; omega
  unfold setSlice
  rw [List.append_assoc, List.take_left' htl]

lemma setSlice_drop_suffix (buf : List Nat) (off j : Nat) (bs : List Nat)
    (hj : j = off + bs.length) (h : off ≤ buf.length) :
    (setSlice buf off j bs).drop j = buf.drop j := by
  have htl : (buf.take off ++ bs).length = j := by
    rw [List.length_append, List.length_take]; omega
  unfold setSlice
  rw [List.drop_left' htl]

/-- C8 (amended): for every field whose byte range lies inside the buffer,
writing a value representable in the field's width through the fixed-offset
mutator and re-reading it through the same-offset same-width accessor yields
the value back, and the bytes before the field and after the field — hence
every other field — are untouched.  (The original claim fails for the
total-trace-count field at 3212–3216 of the 400-byte binary header, whose
mutator appends past the buffer, and for u16-documented values ≥ 32768 read
back through the signed `'>h'` accessors of `get_binary_header_details`.) -/
theorem header_field_roundtrip (buf : List Nat) (off w v : Nat)
    (h : off + w ≤ buf.length) (hv : v < 256 ^ w) :
    beUBE w (pySlice (setSlice buf off (off + w) (packBE w v)) off (off + w)) = some v ∧
    (setSlice buf off (off + w) (packBE w v)).take off = buf.take off ∧
    (setSlice buf off (off + w) (packBE w v)).drop (off + w) = buf.drop (off + w) := by
  refine ⟨?_, setSlice_take_front _ _ _ _ (by omega),
    setSlice_drop_suffix _ _ _ _ (by rw [packBE_length]) (by omega)⟩
  rw [setSlice_extract _ _ _ _ (by rw [packBE_length]) (by omega),
    beUBE_of_length (packBE_length w v), unBE_packBE hv]

/-- Witness for the amended C8: writing 77 into the `num_samples` field
(bytes 20–22) of the all-zero 400-byte header and re-reading it returns 77
and leaves the rest of the buffer untouched. -/
theorem header_field_roundtrip_witness :
    beUBE 2 (pySlice (setSlice bhZero 20 22 (packBE 2 77)) 20 22) = some 77 ∧
    (setSlice bhZero 20 22 (packBE 2 77)).take 20 = bhZero.take 20 ∧
    (setSlice bhZero 20 22 (packBE 2 77)).drop 22 = bhZero.drop 22 :=
  header_field_roundtrip bhZero 20 2 77
    (by norm_num [bhZero, List.length_replicate]) (by norm_num)

lemma bhZero_length : bhZero.length = 400 := by
  norm_num [bhZero, List.length_replicate]

/-- Counterexample for C8: (i) the total-trace-count mutator
`header[3212:3216] = pack('>L', 7)` on the 400-byte buffer appends the four
bytes at buffer offset 400 (the buffer becomes 404 bytes) and the same-offset
accessor `unpack('>L', header[3212:3216])` then reads an empty slice and
fails; (ii) the u16-documented `sample_interval` field written as 40000 and
re-read through `get_binary_header_details`'s signed `'>h'` accessor at the
same offset comes back as -25536. -/
theorem header_field_roundtrip_counterexample :
    (setSlice bhZero 3212 3216 (packBE 4 7)).length = 404 ∧
    beU32 (pySlice (setSlice bhZero 3212 3216 (packBE 4 7)) 3212 3216) = none ∧
    pySlice (setSlice bhZero 3212 3216 (packBE 4 7)) 400 404 = packBE 4 7 ∧
    beI16 (pySlice (setSlice bhZero 16 18 (packBE 2 40000)) 16 18) = some (-25536) ∧
    ((-25536 : Int) ≠ 40000) := by
  have happ : setSlice bhZero 3212 3216 (packBE 4 7) = bhZero ++ packBE 4 7 :=
    setSlice_append_of_le _ _ _ _ (by omega) (by rw [bhZero_length]; omega)
  refine ⟨?_, ?_, ?_, ?_, by decide⟩
  · rw [happ, List.length_append, bhZero_length, packBE_length]
  · apply beUBE_none
    rw [pySlice_length, happ, List.length_append, bhZero_length, packBE_length]
    norm_num
  · rw [happ, pySlice_past_front _ _ _ _ bhZero_length,
      show (404 : Nat) - 400 = 4 by norm_num,
      List.take_of_length_le (by rw [packBE_length])]
  · rw [show (18 : Nat) = 16 + (packBE 2 40000).length by rw [packBE_length]]
    rw [setSlice_extract _ _ _ _ rfl (by rw [bhZero_length, packBE_length]; omega)]
    rw [beI16, beUBE_of_length (packBE_length 2 40000), unBE_packBE (by norm_num)]
    norm_num [toSigned16]

lemma gridInnerLoop_length_le (file : List Nat) (ns il : Nat) :
    ∀ fuel xl pos, (gridInnerLoop file ns il xl pos fuel).1.length ≤ fuel := by
  intro fuel
  induction fuel with
  | zero => intro xl pos; simp [gridInnerLoop]
  | succ fuel ih =>
    intro xl pos
    rcases h : gridEmitTrace file ns il xl pos with _ | ⟨t, pos2⟩
    · simp [gridInnerLoop, h]
    · simp only [gridInnerLoop, h, List.length_cons]
      exact Nat.succ_le_succ (ih (xl + 1) pos2)

lemma gridOuterLoop_length_le (file : List Nat) (ns g : Nat) :
    ∀ fuel il pos, (gridOuterLoop file ns g il pos fuel).1.length ≤ fuel * g := by
  intro fuel
  induction fuel with
  | zero => intro il pos; simp [gridOuterLoop]
  | succ fuel ih =>
    intro il pos
    simp only [gridOuterLoop, List.length_append]
    have h1 := gridInnerLoop_length_le file ns il g 0 pos
    have h2 := ih (il + 1) (gridInnerLoop file ns il 0 pos g).2
    calc (gridInnerLoop file ns il 0 pos g).1.length +
          (gridOuterLoop file ns g (il + 1) (gridInnerLoop file ns il 0 pos g).2 fuel).1.length
        ≤ g + fuel * g := Nat.add_le_add h1 h2
      _ = (fuel + 1) * g := by ring

lemma standardize_unfold (file : List Nat) (p : GridParams)
    (hp : analyze_segy_parameters file = some p) :
    standardize_segy_for_pzero file =
      (if p.trace_size = 0 then none
       else if Int.fdiv ((file.length : Int) - 3600) p.trace_size < 0 then none
       else if p.num_samples < 0 ∨ 65536 ≤ p.num_samples then none
       else some
        (pySlice file 0 3200 ++
          setSlice (setSlice (setSlice (setSlice (pySlice file 3200 3600) 20 22
            (packBE 2 p.num_samples.toNat)) 24 26 (packBE 2 5)) 16 18
            (packBE 2 4003)) 300 302 (packBE 2 2) ++
          (gridOuterLoop file p.num_samples.toNat
            (Nat.sqrt (Int.toNat (Int.fdiv ((file.length : Int) - 3600) p.trace_size)))
            0 3600
            (Nat.sqrt (Int.toNat (Int.fdiv ((file.length : Int) - 3600)
              p.trace_size)))).1.flatten,
          (gridOuterLoop file p.num_samples.toNat
            (Nat.sqrt (Int.toNat (Int.fdiv ((file.length : Int) - 3600) p.trace_size)))
            0 3600
            (Nat.sqrt (Int.toNat (Int.fdiv ((file.length : Int) - 3600)
              p.trace_size)))).1.length,
          Nat.sqrt (Int.toNat (Int.fdiv ((file.length : Int) - 3600) p.trace_size)))) := by
  unfold standardize_segy_for_pzero
  rw [hp]
  rfl

/-- C9: for every input the Grid-Standardize Rewriter accepts (result
`some (output, trace_count, grid_size)`), `grid_size` is the floor square
root of `total_traces = (file_size - 3600) div trace_size` (Python floor
division, `Int.fdiv`; `int(np.sqrt …)` modelled as the exact integer square
root, with which the float64 `np.sqrt` agrees for every `total_traces <
2^52`), and the number of emitted traces is at most `grid_size²` — emitting
fewer traces than `grid_size²` is tolerated, not an error. -/
theorem grid_size_and_bound (file out : List Nat) (cnt gs : Nat)
    (h : standardize_segy_for_pzero file = some (out, cnt, gs)) :
    (∃ p, analyze_segy_parameters file = some p ∧
      gs = Nat.sqrt (Int.toNat (Int.fdiv ((file.length : Int) - 3600) p.trace_size))) ∧
    cnt ≤ gs * gs := by
  rcases hp : analyze_segy_parameters file with _ | p
  · unfold standardize_segy_for_pzero at h
    rw [hp] at h
    exact absurd h (by simp)
  · rw [standardize_unfold file p hp] at h
    split_ifs at h with h0 h1 h2
    simp only [Option.some.injEq, Prod.mk.injEq] at h
    obtain ⟨-, hcnt, hgs⟩ := h
    subst hgs
    refine ⟨⟨p, rfl, rfl⟩, ?_⟩
    rw [← hcnt]
    exact gridOuterLoop_length_le file p.num_samples.toNat _ _ 0 3600

/-- The output the Grid-Standardize Rewriter produces from the 3600-byte
all-zero file (no traces, grid size 0). -/
def exGridOut : List Nat :=
  pySlice exHeadersOnly 0 3200 ++
    setSlice (setSlice (setSlice (setSlice (pySlice exHeadersOnly 3200 3600) 20 22
      (packBE 2 0)) 24 26 (packBE 2 5)) 16 18 (packBE 2 4003)) 300 302 (packBE 2 2) ++
    ([] : List (List Nat)).flatten

lemma standardize_exHeadersOnly :
    standardize_segy_for_pzero exHeadersOnly = some (exGridOut, 0, 0) := by
  rw [standardize_unfold exHeadersOnly _ params_exHeadersOnly, exHeadersOnly_length]
  rw [if_neg (by decide), if_neg (by decide), if_neg (by decide)]
  rfl

/-- Witness for C9 at the 3600-byte all-zero file: zero traces in a 0×0
grid. -/
theorem grid_size_and_bound_witness :
    (∃ p, analyze_segy_parameters exHeadersOnly = some p ∧
      (0 : Nat) = Nat.sqrt (Int.toNat (Int.fdiv ((exHeadersOnly.length : Int) - 3600)
        p.trace_size))) ∧
    (0 : Nat) ≤ 0 * 0 :=
  grid_size_and_bound exHeadersOnly exGridOut 0 0 standardize_exHeadersOnly

lemma analyzeWalk_stop (file : List Nat) (pos fuel : Nat) (h : file.length ≤ pos) :
    analyzeWalk file pos fuel = [] := by
  cases fuel with
  | zero => rfl
  | succ fuel => simp [analyzeWalk, Nat.not_lt.mpr h]

lemma analyze_unfold (file : List Nat) (d : BinHeaderDetails) (rev : Nat)
    (hd : get_binary_header_details (pySlice file 3200 3600) = some d)
    (hrev : beU16 (pySlice (pySlice file 3200 3600) 300 302) = some rev) :
    analyze_segy_file file =
      (if (240 : Int) + d.num_samples * 4 = 0 then .error .divByZero
       else
        match analyzeWalk file 3600 (file.length + 1) with
        | [] => .error .emptyMinMax
        | _ :: _ =>
          .ok ⟨(analyzeWalk file 3600 (file.length + 1)).length,
            Int.fdiv ((file.length : Int) - 3600) (240 + d.num_samples * 4), rev,
            (analyzeWalk file 3600 (file.length + 1)).map (·.size),
            (analyzeWalk file 3600 (file.length + 1)).map (·.ilineId),
            (analyzeWalk file 3600 (file.length + 1)).map (·.xlineId)⟩) := by
  unfold analyze_segy_file
  rw [hd, hrev]

lemma analyzeWalk_succ (file : List Nat) (pos fuel : Nat) :
    analyzeWalk file pos (fuel + 1) =
      if pos < file.length then
        if (readAt file pos 240).length ≠ 240 then []
        else
          match beU16 (pySlice (readAt file pos 240) 114 116),
                beU16 (pySlice (readAt file pos 240) 188 190),
                beU16 (pySlice (readAt file pos 240) 192 194) with
          | some ts, some il, some xl =>
            (⟨ts, il, xl, 240 + ts * 4⟩ : AnalyzedTrace) ::
              analyzeWalk file (pos + (240 + ts * 4)) fuel
          | _, _, _ => []
      else [] := rfl

/-- C10 (amended): for every input file whose headers parse (at least 3502
bytes, so the ten detail fields and the revision field are present), whose
`num_samples` is not the degenerate -60 (which would divide by zero first),
and whose analyzer walk records nothing — which happens exactly when fewer
than 240 bytes follow offset 3600, e.g. a headers-only 3600-byte file — the
Analyzer does not complete a report: it raises the uncaught `min()`/`max()`
error on the empty inline/crossline sets, although header parsing and the
walk itself succeed.  (When at least one 240-byte trace header is present
the walk records it even if its declared payload extends past end-of-file,
so a file with zero scanner-complete traces can still complete a report —
see the counterexample.) -/
theorem analyzer_raises_on_empty_walk (file : List Nat) (d : BinHeaderDetails)
    (h1 : 3502 ≤ file.length) (h2 : file.length < 3840)
    (hd : get_binary_header_details (pySlice file 3200 3600) = some d)
    (hns : (240 : Int) + d.num_samples * 4 ≠ 0) :
    analyze_segy_file file = .error .emptyMinMax := by
  have hrev : beU16 (pySlice (pySlice file 3200 3600) 300 302) =
      some (unBE (pySlice (pySlice file 3200 3600) 300 302)) := by
    apply beUBE_of_length
    rw [pySlice_length, pySlice_length]
    omega
  rw [analyze_unfold file d _ hd hrev, if_neg hns]
  have hwalk : analyzeWalk file 3600 (file.length + 1) = [] := by
    by_cases hl : 3600 < file.length
    · rw [analyzeWalk_succ, if_pos hl,
        if_pos (show (readAt file 3600 240).length ≠ 240 by rw [readAt_length]; omega)]
    · exact analyzeWalk_stop _ _ _ (by omega)
  rw [hwalk]

/-- Witness for the amended C10 at the headers-only 3600-byte file. -/
theorem analyzer_raises_on_empty_walk_witness :
    analyze_segy_file exHeadersOnly = .error .emptyMinMax :=
  analyzer_raises_on_empty_walk exHeadersOnly ⟨0, 0, 0, 0, 0, 0, 0, 0, 0, 0⟩
    (by rw [exHeadersOnly_length]; norm_num) (by rw [exHeadersOnly_length]; norm_num)
    details_exHeadersOnly (by norm_num)

lemma scan_exTruncatedTrace : scanTraces exTruncatedTrace 0 3600 = [] := by
  have hL : exTruncatedTrace.length = 3840 := exTruncatedTrace_length
  have hread : beU16 (pySlice (readAt exTruncatedTrace 3600 240) 114 116) = some 1 := by
    have h := beU16_readAt exTruncatedTrace 3600 114 (by omega) (by omega)
    simp only [show (3600 : Nat) + 114 = 3714 by norm_num,
      show (3600 : Nat) + 114 + 1 = 3715 by norm_num] at h
    rw [h]
    simp only [exTruncatedTrace_getD]
    norm_num
  unfold scanTraces
  rw [hL, scanFromF_succ, if_neg (by omega), if_neg (by
      rw [readAt_length_of_le (by omega)]; simp), hread]
  show (if 3600 + (240 + (if (1 : Nat) = 0 then 0 else 1) * 4) > exTruncatedTrace.length
      then ([] : List TraceRecord)
      else ⟨3600, 240 + (if (1 : Nat) = 0 then 0 else 1) * 4,
          if (1 : Nat) = 0 then 0 else 1⟩ ::
        scanFromF exTruncatedTrace 0
          (3600 + (240 + (if (1 : Nat) = 0 then 0 else 1) * 4)) 3840) = _
  rw [if_pos (by rw [hL]; norm_num)]

lemma walk_exTruncatedTrace :
    analyzeWalk exTruncatedTrace 3600 (exTruncatedTrace.length + 1) =
      [⟨1, 0, 0, 244⟩] := by
  have hL : exTruncatedTrace.length = 3840 := exTruncatedTrace_length
  have hb : ∀ off v, 3600 + off + 2 ≤ 3840 → off + 2 ≤ 240 →
      exTruncatedTrace.getD (3600 + off) 0 = 0 →
      exTruncatedTrace.getD (3600 + off + 1) 0 = v → v < 256 →
      beU16 (pySlice (readAt exTruncatedTrace 3600 240) off (off + 2)) = some v := by
    intro off v ho1 ho2 hz hv hvlt
    rw [beU16_readAt _ _ _ (by omega) ho2, hz, hv]
    norm_num
  have h114 : beU16 (pySlice (readAt exTruncatedTrace 3600 240) 114 116) = some 1 := by
    have := hb 114 1 (by norm_num) (by norm_num)
      (by simp only [show (3600 : Nat) + 114 = 3714 by norm_num, exTruncatedTrace_getD]; norm_num)
      (by simp only [show (3600 : Nat) + 114 + 1 = 3715 by norm_num, exTruncatedTrace_getD]; norm_num)
      (by norm_num)
    simpa using this
  have h188 : beU16 (pySlice (readAt exTruncatedTrace 3600 240) 188 190) = some 0 := by
    have := hb 188 0 (by norm_num) (by norm_num)
      (by simp only [show (3600 : Nat) + 188 = 3788 by norm_num, exTruncatedTrace_getD]; norm_num)
      (by simp only [show (3600 : Nat) + 188 + 1 = 3789 by norm_num, exTruncatedTrace_getD]; norm_num)
      (by norm_num)
    simpa using this
  have h192 : beU16 (pySlice (readAt exTruncatedTrace 3600 240) 192 194) = some 0 := by
    have := hb 192 0 (by norm_num) (by norm_num)
      (by simp only [show (3600 : Nat) + 192 = 3792 by norm_num, exTruncatedTrace_getD]; norm_num)
      (by simp only [show (3600 : Nat) + 192 + 1 = 3793 by norm_num, exTruncatedTrace_getD]; norm_num)
      (by norm_num)
    simpa using this
  rw [hL, analyzeWalk_succ, if_pos (by rw [hL]; norm_num),
    if_neg (by rw [readAt_length, hL]; norm_num), h114, h188, h192]
  show (⟨1, 0, 0, 240 + 1 * 4⟩ : AnalyzedTrace) ::
      analyzeWalk exTruncatedTrace (3600 + (240 + 1 * 4)) 3840 = _
  rw [analyzeWalk_stop _ _ _ (by rw [hL]; norm_num)]

/-- Counterexample for C10: `exTruncatedTrace` is 3840 bytes — headers plus
a single 240-byte trace header that declares 1 sample, whose 244-byte trace
does not fit in the remaining 240 bytes.  The Trace Scanner therefore finds
ZERO complete traces, yet the Analyzer records the trace anyway as soon as
its header is read (it seeks past end-of-file without checking), its
inline/crossline sets are non-empty, and the report COMPLETES instead of
raising. -/
theorem analyzer_completes_with_zero_complete_traces :
    read_binary_header exTruncatedTrace = some (0, 0, 0) ∧
    scanTraces exTruncatedTrace 0 3600 = [] ∧
    analyze_segy_file exTruncatedTrace = .ok ⟨1, 1, 0, [244], [0], [0]⟩ := by
  refine ⟨read_binary_header_exTruncatedTrace, scan_exTruncatedTrace, ?_⟩
  have hrev : beU16 (pySlice (pySlice exTruncatedTrace 3200 3600) 300 302) =
      some 0 := by
    have h := bh_u16 exTruncatedTrace 300 302 (by norm_num) (by norm_num)
      (by rw [exTruncatedTrace_length]; norm_num)
    rw [h]
    simp only [show (3200 : Nat) + 300 = 3500 by norm_num,
      show (3200 : Nat) + 300 + 1 = 3501 by norm_num, exTruncatedTrace_getD]
    norm_num
  rw [analyze_unfold exTruncatedTrace ⟨0, 0, 0, 0, 0, 0, 0, 0, 0, 0⟩ 0
    details_exTruncatedTrace hrev, if_neg (by norm_num), walk_exTruncatedTrace]
  show Except.ok (⟨[(⟨1, 0, 0, 244⟩ : AnalyzedTrace)].length,
      Int.fdiv ((exTruncatedTrace.length : Int) - 3600) (240 + (0 : Int) * 4), 0,
      [(⟨1, 0, 0, 244⟩ : AnalyzedTrace)].map (·.size),
      [(⟨1, 0, 0, 244⟩ : AnalyzedTrace)].map (·.ilineId),
      [(⟨1, 0, 0, 244⟩ : AnalyzedTrace)].map (·.xlineId)⟩ : AnalysisReport) = _
  rw [exTruncatedTrace_length]
  norm_num
